import Mathlib

/-!
Verification development for the record ingestion / forwarding middleware
(`backend/app`).  The Python source is embedded shallowly: the outbound HTTP
destination is modelled as a function from the attempt number (1-based) to the
observable outcome of that attempt, delays are exact rationals, and the
pipeline's external collaborators (jsonschema validation, the transform
registry, the database repository) are explicit parameters returning
`Except`-classified results, mirroring Python exceptions.
-/

/-- Embeds `RetryConfig` from `backend/app/schemas.py`.  Delays are modelled as
rationals; `retry_status_codes` keeps the source's default list.  The pydantic
validator `validate_max_attempts` rejects `max_attempts < 1`; theorems that
need it take `1 ≤ max_attempts` as a hypothesis. -/
structure RetryConfig where
  max_attempts : Nat := 3
  base_delay : ℚ := 1
  max_delay : ℚ := 30
  backoff_factor : ℚ := 2
  retry_status_codes : List Nat := [408, 429, 500, 502, 503, 504]
deriving Repr, DecidableEq

/-- The observable outcome of one HTTP POST/GET attempt against the remote
endpoint, as seen by the `try` block in `forward_data` / `fetch_data_from_api`
(`backend/app/services.py`):
* `response status body` — the client returned a response with this status
  code and raw body bytes (`[]` is an empty body, falsy in Python);
* `netError` — `httpx.RequestError` / `httpx.TimeoutException` was raised
  (no response object is attached to these exceptions);
* `unexpected` — any other exception was raised inside the `try` block. -/
inductive HttpAttempt where
  | response (status : Nat) (body : List Nat)
  | netError (msg : String)
  | unexpected (msg : String)
deriving Repr, DecidableEq

/-- The `content` field of a `ResponseData`: either `response.json()` applied
to a raw body (`parsed`, success path; bodies reaching this path are assumed
to parse) or the raw bytes `e.response.content` (failure path). -/
inductive Content where
  | parsed (body : List Nat)
  | raw (body : List Nat)
deriving Repr, DecidableEq

/-- Embeds the pydantic model `ResponseData` from `backend/app/schemas.py`. -/
structure ResponseData where
  success : Bool
  status_code : Nat
  content : Option Content
  error_message : Option String := none
deriving Repr, DecidableEq

/-- `True` for a 2xx status: the statuses for which httpx's
`Response.raise_for_status` does not raise. -/
def is2xx (s : Nat) : Bool := 200 ≤ s && s < 300

/-- The message `f"Maximum retry attempts ({max_attempts}) exceeded"`. -/
def maxRetriesMsg (cfg : RetryConfig) : String :=
  "Maximum retry attempts (" ++ toString cfg.max_attempts ++ ") exceeded"

/-- The message `f"HTTP error {status_code}: ..."` returned on a
non-retryable `HTTPStatusError`; the trailing exception text is abstracted. -/
def httpErrorMsg (s : Nat) : String :=
  "HTTP error " ++ toString s

/-- The delay computed at the top of each loop iteration in
`forward_data` / `fetch_data_from_api`:
`min(base_delay * backoff_factor ** (attempt - 1), max_delay)`. -/
def attemptDelay (cfg : RetryConfig) (attempt : Nat) : ℚ :=
  min (cfg.base_delay * cfg.backoff_factor ^ (attempt - 1)) cfg.max_delay

/-- Result of a whole `forward_data` call: the returned `ResponseData`
together with the number of HTTP requests actually issued and the sequence of
delays slept between attempts. -/
structure ForwardTrace where
  result : ResponseData
  attempts : Nat
  sleeps : List ℚ
deriving Repr, DecidableEq

/-- The retry loop of `forward_data` (`backend/app/services.py`, lines
293–384).  `fuel` is the number of loop iterations still allowed
(`max_attempts - attempt`), `attempt` the number of requests already made,
`lastStatus` the status attached to `last_exception` (`none` when the last
exception was a network error, which carries no response), `sleeps` the delays
slept so far.  Branching per attempt mirrors the source exactly:
`raise_for_status` (httpx) raises for every non-2xx status, and is invoked
when the status is in `retry_status_codes` or is `≥ 400`; a raised
`HTTPStatusError` with a status outside `retry_status_codes` returns
immediately with the raw body; otherwise the loop continues, sleeping
`attemptDelay` when this was not the last attempt. -/
def forwardGo (cfg : RetryConfig) (dest : Nat → HttpAttempt) :
    Nat → Nat → Option Nat → List ℚ → ForwardTrace
  | 0, attempt, lastStatus, sleeps =>
      { result := { success := false, status_code := lastStatus.getD 0,
                    content := none, error_message := some (maxRetriesMsg cfg) },
        attempts := attempt, sleeps := sleeps }
  | fuel + 1, attempt, _lastStatus, sleeps =>
      let a := attempt + 1
      let delay := attemptDelay cfg a
      match dest a with
      | .response s body =>
          if s ∈ cfg.retry_status_codes && !is2xx s then
            forwardGo cfg dest fuel a (some s)
              (if a < cfg.max_attempts then sleeps ++ [delay] else sleeps)
          else if 400 ≤ s then
            { result := { success := false, status_code := s,
                          content := some (.raw body),
                          error_message := some (httpErrorMsg s) },
              attempts := a, sleeps := sleeps }
          else
            { result := { success := true, status_code := s,
                          content := if body.isEmpty then none
                                     else some (.parsed body),
                          error_message := none },
              attempts := a, sleeps := sleeps }
      | .netError _ =>
          forwardGo cfg dest fuel a none
            (if a < cfg.max_attempts then sleeps ++ [delay] else sleeps)
      | .unexpected msg =>
          { result := { success := false, status_code := 500, content := none,
                        error_message := some ("Unexpected error: " ++ msg) },
            attempts := a, sleeps := sleeps }

/-- Embeds `forward_data` (`backend/app/services.py`): an empty URL raises
`ValueError` (modelled as `.error`); no `auth_handler` is passed anywhere in
the repository, so the authentication block is inert and omitted; the retry
loop then runs with `attempt = 0`. -/
def forward_data (cfg : RetryConfig) (url : String) (dest : Nat → HttpAttempt) :
    Except String ForwardTrace :=
  if url = "" then .error "URL cannot be empty"
  else .ok (forwardGo cfg dest cfg.max_attempts 0 none [])





/-- A JSON value, as returned by `response.json()`.  Objects are finite lists
of key/value pairs; Python `dict`s cannot hold duplicate keys, and key lookup
takes the first binding. -/
inductive Json where
  | null
  | bool (b : Bool)
  | num (n : Int)
  | str (s : String)
  | arr (xs : List Json)
  | obj (fields : List (String × Json))
deriving Repr

/-- The response-shape normalization in `fetch_data_from_api`
(`backend/app/services.py`, lines 106–117): a list is returned as is; a dict
is probed for the keys `"data"`, `"results"`, `"items"` in that order and the
first present key's value is returned; anything else is wrapped in a
one-element list. -/
def normalizeApiResponse (j : Json) : Json :=
  match j with
  | .arr xs => .arr xs
  | .obj fields =>
      match fields.lookup "data" with
      | some v => v
      | none =>
        match fields.lookup "results" with
        | some v => v
        | none =>
          match fields.lookup "items" with
          | some v => v
          | none => .arr [.obj fields]
  | other => .arr [other]

/-- One GET attempt as seen by `fetch_data_from_api`: a response carries the
status, the raw body bytes (`response.content`) and the parse
`response.json()` of that body (bodies reaching the parse are assumed to
parse; a parse failure falls under `unexpected`). -/
inductive FetchAttempt where
  | response (status : Nat) (raw : List Nat) (body : Json)
  | netError (msg : String)
  | unexpected (msg : String)
deriving Repr

/-- Result of a `fetch_data_from_api` call: the Python function returns either
the normalized JSON payload (`Sum.inl`) or a `ResponseData` failure object
(`Sum.inr`); `none` models the implicit `None` return when the loop body is
never entered (`max_attempts = 0`, rejected by the pydantic validator). -/
structure FetchTrace where
  result : Option (Json ⊕ ResponseData)
  attempts : Nat
  sleeps : List ℚ
deriving Repr

/-- Embeds `fetch_data_from_api` (`backend/app/services.py`, lines 85–175)
with its actual indentation: the `error_message = ...` / `return
ResponseData(...)` block at lines 164–175 sits INSIDE the `while` loop body,
so every path through the first iteration returns — the loop can never run a
second iteration.  Per attempt: `raise_for_status` is called unconditionally,
raising for any non-2xx status; a 2xx response returns the normalized body; a
non-retryable `HTTPStatusError` returns immediately with status and raw body;
a retryable status or a network error falls through to the in-loop epilogue,
which sleeps when `attempt < max_attempts` and then returns the
"Maximum retry attempts exceeded" `ResponseData` (status from the last
exception's response when it has one, else 0). -/
def fetch_data_from_api (cfg : RetryConfig) (dest : Nat → FetchAttempt) :
    FetchTrace :=
  if cfg.max_attempts = 0 then { result := none, attempts := 0, sleeps := [] }
  else
    let delay := attemptDelay cfg 1
    let epilogue : Option Nat → FetchTrace := fun lastStatus =>
      { result := some (.inr { success := false,
                               status_code := lastStatus.getD 0,
                               content := none,
                               error_message := some (maxRetriesMsg cfg) }),
        attempts := 1,
        sleeps := if 1 < cfg.max_attempts then [delay] else [] }
    match dest 1 with
    | .response s raw body =>
        if is2xx s then
          { result := some (.inl (normalizeApiResponse body)),
            attempts := 1, sleeps := [] }
        else if s ∈ cfg.retry_status_codes then
          epilogue (some s)
        else
          { result := some (.inr { success := false, status_code := s,
                                   content := some (.raw raw),
                                   error_message := some (httpErrorMsg s) }),
            attempts := 1, sleeps := [] }
    | .netError _ => epilogue none
    | .unexpected msg =>
        { result := some (.inr { success := false, status_code := 500,
                                 content := none,
                                 error_message := some ("Unexpected error: " ++ msg) }),
          attempts := 1, sleeps := [] }



/-- The external collaborators of one `process_records` run
(`backend/app/services.py`, lines 178–213), for records of type `R` and
transformed payloads of type `T`.  Each field returns `Except`: `.error`
models a raised Python exception.
* `validate r`: `jsonschema.validate(instance=record, schema=schema)` —
  `.error m` is a raised `ValidationError` with message `m`;
* `transform r`: `schema_config["transform"](record)`;
* `create r t`: `repo.create({...}, refresh_fields=["id"])`, returning the
  generated `db_item.id` (the commit happens inside this call);
* `forward t`: `forward_data(transformed_data, schema_config["destination_url"])`
  — `.ok rd` is the RETURNED `ResponseData`, whatever its `success` field;
  `.error m` is a raised exception (e.g. `ValueError` on an empty URL). -/
structure PipelineEnv (R T : Type) where
  validate : R → Except String Unit
  transform : R → Except String T
  create : R → T → Except String Nat
  forward : T → Except String ResponseData

/-- Classified outcome of one loop iteration of `process_records` for one
record: which bucket the record lands in. -/
inductive RecordOutcome where
  | success (id : Nat)
  | vfail (detail : String)
  | ofail (detail : String)
deriving Repr, DecidableEq

/-- One iteration of the `for record in records` loop in `process_records`:
validate, then transform, then persist, then forward; a `ValidationError`
goes to the validation bucket, any other exception to the error bucket, and
reaching the end of the `try` block appends a success entry carrying the
persisted id.  The value RETURNED by `forward` is discarded by the source
(line 200 ignores the result of `await forward_data(...)`), so only a RAISED
exception diverts the record from the success bucket. -/
def processRecord {R T : Type} (env : PipelineEnv R T) (r : R) : RecordOutcome :=
  match env.validate r with
  | .error m => .vfail m
  | .ok () =>
    match env.transform r with
    | .error m => .ofail m
    | .ok t =>
      match env.create r t with
      | .error m => .ofail m
      | .ok id =>
        match env.forward t with
        | .error m => .ofail m
        | .ok _rd => .success id

/-- Entry of the `results` bucket: `{"id": db_item.id, "status": "success"}`. -/
structure SuccessEntry where
  id : Nat
  status : String
deriving Repr, DecidableEq

/-- Entry of the `validation_errors` / `errors` buckets:
`{"record": record, "status": ..., "detail": ...}`. -/
structure FailureEntry (R : Type) where
  record : R
  status : String
  detail : String

/-- The dictionary returned by `process_records`: the three buckets, in the
order records were appended. -/
structure BatchResult (R : Type) where
  results : List SuccessEntry
  validation_errors : List (FailureEntry R)
  errors : List (FailureEntry R)

/-- Embeds `process_records` (`backend/app/services.py`, lines 178–213).  The
source loop appends each record's entry at the end of its bucket; recursing on
the head and prepending to the recursive result's buckets yields the same
lists. -/
def process_records {R T : Type} (env : PipelineEnv R T) :
    List R → BatchResult R
  | [] => { results := [], validation_errors := [], errors := [] }
  | r :: rs =>
    let rest := process_records env rs
    match processRecord env r with
    | .success id =>
        { rest with results := { id := id, status := "success" } :: rest.results }
    | .vfail m =>
        { rest with validation_errors :=
            { record := r, status := "validation error", detail := m }
              :: rest.validation_errors }
    | .ofail m =>
        { rest with errors :=
            { record := r, status := "error", detail := m } :: rest.errors }

/-- Observable side-effect events of one `process_records` run, tagged with
the 0-based position of the record in the input batch.  `persistCommit`
marks the completed (committed) `repo.create` call, `forwardStart` the start
of the `forward_data` call for that record. -/
inductive Event where
  | validateOk (i : Nat)
  | validateFail (i : Nat) (msg : String)
  | transformOk (i : Nat)
  | transformFail (i : Nat) (msg : String)
  | persistCommit (i : Nat) (id : Nat)
  | persistFail (i : Nat) (msg : String)
  | forwardStart (i : Nat)
deriving Repr, DecidableEq

/-- The input-batch position an event belongs to. -/
def Event.idx : Event → Nat
  | .validateOk i => i
  | .validateFail i _ => i
  | .transformOk i => i
  | .transformFail i _ => i
  | .persistCommit i _ => i
  | .persistFail i _ => i
  | .forwardStart i => i

/-- The side-effect events emitted while `process_records` handles the record
at position `i`: the calls made, in program order, by the `try` block of one
loop iteration. -/
def recordTrace {R T : Type} (env : PipelineEnv R T) (i : Nat) (r : R) :
    List Event :=
  match env.validate r with
  | .error m => [.validateFail i m]
  | .ok () =>
    .validateOk i ::
      match env.transform r with
      | .error m => [.transformFail i m]
      | .ok t =>
        .transformOk i ::
          match env.create r t with
          | .error m => [.persistFail i m]
          | .ok id => [.persistCommit i id, .forwardStart i]

/-- Concatenated side-effect events of `process_records` over a batch,
starting at record position `i0`: the loop handles records strictly in input
order. -/
def pipelineTraceFrom {R T : Type} (env : PipelineEnv R T) (i0 : Nat) :
    List R → List Event
  | [] => []
  | r :: rs => recordTrace env i0 r ++ pipelineTraceFrom env (i0 + 1) rs

/-- The full event trace of a `process_records` run. -/
def pipelineTrace {R T : Type} (env : PipelineEnv R T) (recs : List R) :
    List Event :=
  pipelineTraceFrom env 0 recs

/-- The aggregate decision both `upload_file` (`backend/app/main.py`, lines
248–269) and `fetch_data` (lines 133–154) take on the buckets returned by
`process_records`: empty success bucket → `HTTPException(400, ...)`; any
validation or other error → some-failed (HTTP 200 partial) body; otherwise full-success
body. -/
inductive BatchVerdict where
  | hardError (num_validation_errors num_errors : Nat)
  | someFailed (num_validation_errors num_errors : Nat) (results : List SuccessEntry)
  | fullSuccess (results : List SuccessEntry)
deriving Repr

/-- Embeds the bucket-count decision shared verbatim by `upload_file` and
`fetch_data` in `backend/app/main.py`. -/
def batchVerdict {R : Type} (p : BatchResult R) : BatchVerdict :=
  let nv := p.validation_errors.length
  let ne := p.errors.length
  if p.results.length = 0 then .hardError nv ne
  else if nv ≠ 0 ∨ ne ≠ 0 then .someFailed nv ne p.results
  else .fullSuccess p.results

/-- `True` exactly on the full-success verdict. -/
def BatchVerdict.isFullSuccess : BatchVerdict → Bool
  | .fullSuccess _ => true
  | _ => false

/-- `True` exactly on the hard-error (HTTP 400) verdict. -/
def BatchVerdict.isHardError : BatchVerdict → Bool
  | .hardError _ _ => true
  | _ => false

/-- Statuses on which `forward_data` returns a success `ResponseData`: a 2xx
status, or a sub-400 status that is not in the retryable set (3xx statuses
outside `retry_status_codes` never trigger `raise_for_status`, so the code
falls through to the success return). -/
def goodStatus (cfg : RetryConfig) (s : Nat) : Bool :=
  is2xx s || (decide (s < 400) && !decide (s ∈ cfg.retry_status_codes))

/-- A destination that answers every attempt with HTTP 503 (in the default
retryable set) and an empty body. -/
def dest503 : Nat → HttpAttempt := fun _ => .response 503 []

/-- Concrete all-succeeding collaborators over `Nat` records: validation
passes, the transform is the identity, persistence yields id 0, forwarding
returns a 200 `ResponseData`. -/
def envOk : PipelineEnv Nat Nat where
  validate := fun _ => .ok ()
  transform := fun r => .ok r
  create := fun _ _ => .ok 0
  forward := fun _ => .ok { success := true, status_code := 200, content := none }

/-- Concrete collaborators over `Nat` records where schema validation rejects
the record `0` and everything else succeeds (persisted id = transformed
value). -/
def envMixed : PipelineEnv Nat Nat where
  validate := fun r => if r = 0 then .error "0 is not valid" else .ok ()
  transform := fun r => .ok r
  create := fun _ t => .ok t
  forward := fun _ => .ok { success := true, status_code := 200, content := none }

/-- The collaborators of the C1 failing run: one valid record, persistence
returns id 1, and the forward step is the embedded `forward_data` against a
destination that always answers 503 with the default `RetryConfig` — exactly
what `process_records` calls at line 200. -/
def env503 : PipelineEnv Nat Nat where
  validate := fun _ => .ok ()
  transform := fun r => .ok r
  create := fun _ _ => .ok 1
  forward := fun _ =>
    (forward_data {} "http://destination" dest503).map (fun tr => tr.result)

/-- C9: `fetch_data_from_api` normalizes a successfully fetched JSON body as
follows: a list is returned as is; an object is probed for the keys `"data"`,
`"results"`, `"items"` in that order, and the first present key's value is
returned; any other shape (including an object with none of the three keys)
is wrapped as a one-element list. -/
theorem c9_fetch_normalization :
    (∀ xs : List Json, normalizeApiResponse (.arr xs) = .arr xs) ∧
    (∀ fields v, fields.lookup "data" = some v →
        normalizeApiResponse (.obj fields) = v) ∧
    (∀ fields v, fields.lookup "data" = none →
        fields.lookup "results" = some v →
        normalizeApiResponse (.obj fields) = v) ∧
    (∀ fields v, fields.lookup "data" = none →
        fields.lookup "results" = none →
        fields.lookup "items" = some v →
        normalizeApiResponse (.obj fields) = v) ∧
    (∀ fields, fields.lookup "data" = none →
        fields.lookup "results" = none →
        fields.lookup "items" = none →
        normalizeApiResponse (.obj fields) = .arr [.obj fields]) ∧
    (∀ j : Json, (∀ xs, j ≠ .arr xs) → (∀ f, j ≠ .obj f) →
        normalizeApiResponse j = .arr [j]) := by
  refine ⟨fun xs => rfl, ?_, ?_, ?_, ?_, ?_⟩
  · intro fields v h
    simp [normalizeApiResponse, h]
  · intro fields v h1 h2
    simp [normalizeApiResponse, h1, h2]
  · intro fields v h1 h2 h3
    simp [normalizeApiResponse, h1, h2, h3]
  · intro fields h1 h2 h3
    simp [normalizeApiResponse, h1, h2, h3]
  · intro j harr hobj
    cases j with
    | arr xs => exact absurd rfl (harr xs)
    | obj f => exact absurd rfl (hobj f)
    | null => rfl
    | bool b => rfl
    | num n => rfl
    | str s => rfl

/-- Witness for C9 at a concrete input: an object carrying only a
`"results"` key normalizes to that key's value. -/
theorem c9_fetch_normalization_witness :
    normalizeApiResponse (.obj [("results", .num 5)]) = .num 5 :=
  c9_fetch_normalization.2.2.1 [("results", .num 5)] (.num 5) rfl rfl

/-- C10: for every retry configuration with `max_attempts ≥ 2`,
`fetch_data_from_api` issues at most one HTTP request; after a
first-attempt retryable status or network error it sleeps once and then
returns the "Maximum retry attempts exceeded" `ResponseData` failure object
(not a list of records), without making a second attempt — the exhaustion
epilogue sits inside the while loop, so no second iteration is reachable. -/
theorem c10_fetch_single_attempt (cfg : RetryConfig) (dest : Nat → FetchAttempt)
    (h2 : 2 ≤ cfg.max_attempts) :
    (fetch_data_from_api cfg dest).attempts ≤ 1 ∧
    (∀ s raw body, dest 1 = .response s raw body →
        s ∈ cfg.retry_status_codes → is2xx s = false →
        fetch_data_from_api cfg dest =
          { result := some (.inr { success := false, status_code := s,
                                   content := none,
                                   error_message := some (maxRetriesMsg cfg) }),
            attempts := 1, sleeps := [attemptDelay cfg 1] }) ∧
    (∀ m, dest 1 = .netError m →
        fetch_data_from_api cfg dest =
          { result := some (.inr { success := false, status_code := 0,
                                   content := none,
                                   error_message := some (maxRetriesMsg cfg) }),
            attempts := 1, sleeps := [attemptDelay cfg 1] }) := by
  have hne : ¬ cfg.max_attempts = 0 := by omega
  have hlt : 1 < cfg.max_attempts := by omega
  refine ⟨?_, ?_, ?_⟩
  · unfold fetch_data_from_api
    rw [if_neg hne]
    cases dest 1 with
    | response s raw body =>
        dsimp only
        split
        · exact Nat.le_refl 1
        · split <;> simp
    | netError m => simp [hlt]
    | unexpected m => simp
  · intro s raw body hd hretry h2xx
    unfold fetch_data_from_api
    rw [if_neg hne, hd]
    simp [h2xx, hretry, hlt]
  · intro m hd
    unfold fetch_data_from_api
    rw [if_neg hne, hd]
    simp [hlt]

/-- Witness for C10: default configuration (3 attempts) against a destination
answering 503 — a single request, one sleep, and the max-retries failure. -/
theorem c10_fetch_single_attempt_witness :
    fetch_data_from_api {} (fun _ => .response 503 [] .null) =
      { result := some (.inr { success := false, status_code := 503,
                               content := none,
                               error_message := some (maxRetriesMsg {}) }),
        attempts := 1, sleeps := [attemptDelay {} 1] } :=
  (c10_fetch_single_attempt {} (fun _ => .response 503 [] .null)
      (by norm_num)).2.1 503 [] .null rfl (by decide) rfl

/-- C4: a destination whose first response carries a status `≥ 400` outside
`retry_status_codes` makes exactly one attempt: `forward_data` returns
immediately with `success = false`, that status code, and the raw response
body, having slept zero times (the `max_attempts ≥ 1` hypothesis is the
pydantic `RetryConfig` validator's invariant). -/
theorem c4_nonretryable_first_response (cfg : RetryConfig) (url : String)
    (dest : Nat → HttpAttempt) (s : Nat) (body : List Nat)
    (hmax : 1 ≤ cfg.max_attempts) (hurl : ¬ url = "")
    (hd : dest 1 = .response s body) (hs : 400 ≤ s)
    (hnr : s ∉ cfg.retry_status_codes) :
    forward_data cfg url dest =
      .ok { result := { success := false, status_code := s,
                        content := some (.raw body),
                        error_message := some (httpErrorMsg s) },
            attempts := 1, sleeps := [] } := by
  unfold forward_data
  rw [if_neg hurl]
  cases hm : cfg.max_attempts with
  | zero => omega
  | succ n =>
      unfold forwardGo
      simp [hd, hnr, hs]

/-- Witness for C4: default configuration against a destination answering 404
with body bytes `[7]`. -/
theorem c4_nonretryable_first_response_witness :
    forward_data {} "http://d" (fun _ => .response 404 [7]) =
      .ok { result := { success := false, status_code := 404,
                        content := some (.raw [7]),
                        error_message := some (httpErrorMsg 404) },
            attempts := 1, sleeps := [] } :=
  c4_nonretryable_first_response {} "http://d" (fun _ => .response 404 [7])
    404 [7] (by norm_num) (by simp) rfl (by norm_num) (by decide)

/-- Helper for C2: if every remaining attempt is answered with a retryable
non-2xx status, the `forward_data` loop runs to exhaustion: it issues all
remaining requests and returns the max-retries failure, whose status code is
the last attempt's status (or, when no iteration remains, the status carried
in from the last exception). -/
theorem forwardGo_all_retryable (cfg : RetryConfig) (dest : Nat → HttpAttempt) :
    ∀ (fuel attempt : Nat) (ls : Option Nat) (sl : List ℚ),
      attempt + fuel = cfg.max_attempts →
      (∀ k, attempt ≤ k → k < cfg.max_attempts →
        ∃ s b, dest (k + 1) = .response s b ∧
          s ∈ cfg.retry_status_codes ∧ is2xx s = false) →
      (forwardGo cfg dest fuel attempt ls sl).attempts = cfg.max_attempts ∧
      (forwardGo cfg dest fuel attempt ls sl).result.success = false ∧
      (forwardGo cfg dest fuel attempt ls sl).result.error_message =
        some (maxRetriesMsg cfg) ∧
      (forwardGo cfg dest fuel attempt ls sl).result.content = none ∧
      (fuel = 0 →
        (forwardGo cfg dest fuel attempt ls sl).result.status_code = ls.getD 0) ∧
      (∀ s b, 1 ≤ fuel → dest cfg.max_attempts = .response s b →
        (forwardGo cfg dest fuel attempt ls sl).result.status_code = s) := by
  intro fuel
  induction fuel with
  | zero =>
      intro attempt ls sl hinv hdest
      refine ⟨by simpa [forwardGo] using hinv, rfl, rfl, rfl, fun _ => rfl, ?_⟩
      intro s b h1 _
      omega
  | succ fuel ih =>
      intro attempt ls sl hinv hdest
      have hlt : attempt < cfg.max_attempts := by omega
      obtain ⟨s, b, hd, hretry, h2xx⟩ := hdest attempt (Nat.le_refl _) hlt
      have hcond : (decide (s ∈ cfg.retry_status_codes) && !is2xx s) = true := by
        simp [hretry, h2xx]
      have hstep :
          forwardGo cfg dest (fuel + 1) attempt ls sl =
            forwardGo cfg dest fuel (attempt + 1) (some s)
              (if attempt + 1 < cfg.max_attempts
               then sl ++ [attemptDelay cfg (attempt + 1)] else sl) := by
        conv_lhs => unfold forwardGo
        simp [hd, hcond]
      have hinv' : attempt + 1 + fuel = cfg.max_attempts := by omega
      have hdest' : ∀ k, attempt + 1 ≤ k → k < cfg.max_attempts →
          ∃ s b, dest (k + 1) = .response s b ∧
            s ∈ cfg.retry_status_codes ∧ is2xx s = false := by
        intro k hk hk2
        exact hdest k (by omega) hk2
      obtain ⟨ha, hsucc, hmsg, hcont, hzero, hlast⟩ :=
        ih (attempt + 1) (some s)
          (if attempt + 1 < cfg.max_attempts
           then sl ++ [attemptDelay cfg (attempt + 1)] else sl) hinv' hdest'
      rw [hstep]
      refine ⟨ha, hsucc, hmsg, hcont, fun h => by omega, ?_⟩
      intro s2 b2 _ hd2
      rcases Nat.eq_zero_or_pos fuel with hf | hf
      · have hmax : cfg.max_attempts = attempt + 1 := by omega
        rw [hmax] at hd2
        rw [hd] at hd2
        have hs2 : s2 = s := by
          cases hd2
          rfl
        rw [hzero hf, hs2]
        rfl
      · exact hlast s2 b2 hf hd2

/-- C2 (amended): with `max_attempts = N ≥ 1`, a nonempty destination URL and
a destination answering every attempt with a non-2xx status from
`retryable_status_codes`, `forward_data` makes exactly N request attempts and
returns `success = false` with the last attempt's status code and the
"Maximum retry attempts exceeded" message. -/
theorem c2_all_retryable_exhausts (cfg : RetryConfig) (url : String)
    (dest : Nat → HttpAttempt) (hmax : 1 ≤ cfg.max_attempts)
    (hurl : ¬ url = "")
    (hdest : ∀ k, k < cfg.max_attempts →
      ∃ s b, dest (k + 1) = .response s b ∧
        s ∈ cfg.retry_status_codes ∧ is2xx s = false) :
    ∃ tr, forward_data cfg url dest = .ok tr ∧
      tr.attempts = cfg.max_attempts ∧
      tr.result.success = false ∧
      tr.result.error_message = some (maxRetriesMsg cfg) ∧
      tr.result.content = none ∧
      ∀ s b, dest cfg.max_attempts = .response s b →
        tr.result.status_code = s := by
  refine ⟨forwardGo cfg dest cfg.max_attempts 0 none [], ?_, ?_⟩
  · unfold forward_data
    rw [if_neg hurl]
  · obtain ⟨ha, hsucc, hmsg, hcont, _, hlast⟩ :=
      forwardGo_all_retryable cfg dest cfg.max_attempts 0 none [] (by omega)
        (fun k _ hk => hdest k hk)
    exact ⟨ha, hsucc, hmsg, hcont, fun s b hd => hlast s b hmax hd⟩

/-- Witness for C2 (amended): default configuration (3 attempts) against a
destination answering 503 on every attempt. -/
theorem c2_all_retryable_exhausts_witness :
    ∃ tr, forward_data {} "http://d" dest503 = .ok tr ∧
      tr.attempts = RetryConfig.max_attempts {} ∧
      tr.result.success = false ∧
      tr.result.error_message = some (maxRetriesMsg {}) ∧
      tr.result.content = none ∧
      ∀ s b, dest503 (RetryConfig.max_attempts {}) = .response s b →
        tr.result.status_code = s :=
  c2_all_retryable_exhausts {} "http://d" dest503 (by norm_num) (by simp)
    (fun k _ => ⟨503, [], rfl, by decide, rfl⟩)

/-- Counterexample to C2 as stated: the claim quantifies over every retry
policy and every status in `retryable_status_codes`, but with
`retry_status_codes = [200]` and a destination always answering 200,
`forward_data` returns success on the FIRST attempt (a retryable 2xx status
never raises `HTTPStatusError`), instead of making `max_attempts = 2`
attempts and failing. -/
theorem c2_counterexample :
    forward_data { max_attempts := 2, retry_status_codes := [200] } "http://d"
        (fun _ => .response 200 []) =
      .ok { result := { success := true, status_code := 200, content := none,
                        error_message := none },
            attempts := 1, sleeps := [] } := by
  rfl

/-- `goodStatus` unfolded to a proposition. -/
theorem goodStatus_iff (cfg : RetryConfig) (s : Nat) :
    goodStatus cfg s = true ↔
      (is2xx s = true ∨ (s < 400 ∧ s ∉ cfg.retry_status_codes)) := by
  simp [goodStatus]

/-- Helper for C3: a `forward_data` loop run succeeds exactly when one of the
executed attempts received a `goodStatus` response, and on success the
returned `ResponseData` carries the final attempt's status and parsed body
(absent body → no content). -/
theorem forwardGo_success_iff (cfg : RetryConfig) (dest : Nat → HttpAttempt) :
    ∀ (fuel attempt : Nat) (ls : Option Nat) (sl : List ℚ),
      ((forwardGo cfg dest fuel attempt ls sl).result.success = true ↔
        ∃ k, attempt ≤ k ∧ k < (forwardGo cfg dest fuel attempt ls sl).attempts ∧
          ∃ s b, dest (k + 1) = .response s b ∧ goodStatus cfg s = true) ∧
      ((forwardGo cfg dest fuel attempt ls sl).result.success = true →
        ∃ s b,
          dest ((forwardGo cfg dest fuel attempt ls sl).attempts) = .response s b ∧
          (forwardGo cfg dest fuel attempt ls sl).result.status_code = s ∧
          (forwardGo cfg dest fuel attempt ls sl).result.content =
            (if b.isEmpty then none else some (.parsed b))) := by
  intro fuel
  induction fuel with
  | zero =>
      intro attempt ls sl
      refine ⟨?_, ?_⟩
      · constructor
        · intro h
          simp [forwardGo] at h
        · rintro ⟨k, hk1, hk2, -⟩
          simp only [forwardGo] at hk2
          omega
      · intro h
        simp [forwardGo] at h
  | succ fuel ih =>
      intro attempt ls sl
      cases hd : dest (attempt + 1) with
      | response s b =>
          by_cases hc : (decide (s ∈ cfg.retry_status_codes) && !is2xx s) = true
          · have hc' : s ∈ cfg.retry_status_codes ∧ is2xx s = false := by
              simpa using hc
            have hmem : s ∈ cfg.retry_status_codes := hc'.1
            have h2 : is2xx s = false := hc'.2
            have hgood : goodStatus cfg s = false := by
              simp [goodStatus, h2, hmem]
            have hstep : forwardGo cfg dest (fuel + 1) attempt ls sl =
                forwardGo cfg dest fuel (attempt + 1) (some s)
                  (if attempt + 1 < cfg.max_attempts
                   then sl ++ [attemptDelay cfg (attempt + 1)] else sl) := by
              conv_lhs => unfold forwardGo
              simp [hd, hc]
            rw [hstep]
            obtain ⟨ihiff, ihcap⟩ :=
              ih (attempt + 1) (some s)
                (if attempt + 1 < cfg.max_attempts
                 then sl ++ [attemptDelay cfg (attempt + 1)] else sl)
            refine ⟨?_, ihcap⟩
            rw [ihiff]
            constructor
            · rintro ⟨k, hk1, hk2, hrest⟩
              exact ⟨k, by omega, hk2, hrest⟩
            · rintro ⟨k, hk1, hk2, s2, b2, hd2, hg2⟩
              rcases Nat.eq_or_lt_of_le hk1 with heq | hlt
              · subst heq
                rw [hd] at hd2
                cases hd2
                rw [hgood] at hg2
                cases hg2
              · exact ⟨k, hlt, hk2, s2, b2, hd2, hg2⟩
          · by_cases hs4 : 400 ≤ s
            · have h2 : is2xx s = false := by
                simp [is2xx]
                omega
              have hmem : s ∉ cfg.retry_status_codes := by
                intro hm
                exact hc (by simp [hm, h2])
              have hgood : goodStatus cfg s = false := by
                simp [goodStatus, h2, hmem]
                omega
              have hstep : forwardGo cfg dest (fuel + 1) attempt ls sl =
                  { result := { success := false, status_code := s,
                                content := some (.raw b),
                                error_message := some (httpErrorMsg s) },
                    attempts := attempt + 1, sleeps := sl } := by
                conv_lhs => unfold forwardGo
                simp [hd, hc, hs4]
              rw [hstep]
              refine ⟨?_, ?_⟩
              · constructor
                · intro h
                  simp at h
                · rintro ⟨k, hk1, hk2, s2, b2, hd2, hg2⟩
                  simp only at hk2
                  have hk : k = attempt := by omega
                  subst hk
                  rw [hd] at hd2
                  cases hd2
                  rw [hgood] at hg2
                  cases hg2
              · intro h
                simp at h
            · have hgood : goodStatus cfg s = true := by
                have h4 : s < 400 := by omega
                by_cases hmem : s ∈ cfg.retry_status_codes
                · have h2 : is2xx s = true := by
                    cases hh : is2xx s with
                    | true => rfl
                    | false => exact absurd (by simp [hmem, hh]) hc
                  simp [goodStatus, h2]
                · simp [goodStatus, h4, hmem]
              have hstep : forwardGo cfg dest (fuel + 1) attempt ls sl =
                  { result := { success := true, status_code := s,
                                content := if b.isEmpty then none
                                           else some (.parsed b),
                                error_message := none },
                    attempts := attempt + 1, sleeps := sl } := by
                conv_lhs => unfold forwardGo
                simp [hd, hc, hs4]
              rw [hstep]
              refine ⟨?_, ?_⟩
              · constructor
                · intro _
                  exact ⟨attempt, Nat.le_refl _, by simp, s, b, hd, hgood⟩
                · intro _
                  rfl
              · intro _
                exact ⟨s, b, hd, rfl, rfl⟩
      | netError m =>
          have hstep : forwardGo cfg dest (fuel + 1) attempt ls sl =
              forwardGo cfg dest fuel (attempt + 1) none
                (if attempt + 1 < cfg.max_attempts
                 then sl ++ [attemptDelay cfg (attempt + 1)] else sl) := by
            conv_lhs => unfold forwardGo
            simp [hd]
          rw [hstep]
          obtain ⟨ihiff, ihcap⟩ :=
            ih (attempt + 1) none
              (if attempt + 1 < cfg.max_attempts
               then sl ++ [attemptDelay cfg (attempt + 1)] else sl)
          refine ⟨?_, ihcap⟩
          rw [ihiff]
          constructor
          · rintro ⟨k, hk1, hk2, hrest⟩
            exact ⟨k, by omega, hk2, hrest⟩
          · rintro ⟨k, hk1, hk2, s2, b2, hd2, hg2⟩
            rcases Nat.eq_or_lt_of_le hk1 with heq | hlt
            · subst heq
              rw [hd] at hd2
              cases hd2
            · exact ⟨k, hlt, hk2, s2, b2, hd2, hg2⟩
      | unexpected m =>
          have hstep : forwardGo cfg dest (fuel + 1) attempt ls sl =
              { result := { success := false, status_code := 500, content := none,
                            error_message := some ("Unexpected error: " ++ m) },
                attempts := attempt + 1, sleeps := sl } := by
            conv_lhs => unfold forwardGo
            simp [hd]
          rw [hstep]
          refine ⟨?_, ?_⟩
          · constructor
            · intro h
              simp at h
            · rintro ⟨k, hk1, hk2, s2, b2, hd2, hg2⟩
              simp only at hk2
              have hk : k = attempt := by omega
              subst hk
              rw [hd] at hd2
              cases hd2
          · intro h
            simp at h

/-- C3 (amended): `forward_data` returns success exactly when some attempt's
response status is a 2xx status OR a sub-400 status outside
`retryable_status_codes` (a non-retryable 3xx also yields success, see the
counterexample); on success the result carries the final attempt's status
code and parsed body, with null content when the body is absent. -/
theorem c3_success_characterization (cfg : RetryConfig) (url : String)
    (dest : Nat → HttpAttempt) (hurl : ¬ url = "") :
    ∃ tr, forward_data cfg url dest = .ok tr ∧
      (tr.result.success = true ↔
        ∃ k, k < tr.attempts ∧ ∃ s b, dest (k + 1) = .response s b ∧
          (is2xx s = true ∨ (s < 400 ∧ s ∉ cfg.retry_status_codes))) ∧
      (tr.result.success = true →
        ∃ s b, dest tr.attempts = .response s b ∧
          tr.result.status_code = s ∧
          tr.result.content = (if b.isEmpty then none else some (.parsed b))) := by
  refine ⟨forwardGo cfg dest cfg.max_attempts 0 none [], ?_, ?_, ?_⟩
  · unfold forward_data
    rw [if_neg hurl]
  · obtain ⟨hiff, -⟩ := forwardGo_success_iff cfg dest cfg.max_attempts 0 none []
    rw [hiff]
    constructor
    · rintro ⟨k, -, hk2, s, b, hd, hg⟩
      exact ⟨k, hk2, s, b, hd, (goodStatus_iff cfg s).mp hg⟩
    · rintro ⟨k, hk2, s, b, hd, hg⟩
      exact ⟨k, Nat.zero_le _, hk2, s, b, hd, (goodStatus_iff cfg s).mpr hg⟩
  · exact (forwardGo_success_iff cfg dest cfg.max_attempts 0 none []).2

/-- Witness for C3 (amended) at a concrete input: default configuration, a
destination answering 200 with body `[1]` — delivery succeeds with status 200
and the parsed body. -/
theorem c3_success_characterization_witness :
    ∃ tr, forward_data {} "http://d" (fun _ => .response 200 [1]) = .ok tr ∧
      (tr.result.success = true ↔
        ∃ k, k < tr.attempts ∧
          ∃ s b, (fun _ => HttpAttempt.response 200 [1] : Nat → HttpAttempt) (k + 1)
              = .response s b ∧
            (is2xx s = true ∨ (s < 400 ∧ s ∉ RetryConfig.retry_status_codes {}))) ∧
      (tr.result.success = true →
        ∃ s b, (fun _ => HttpAttempt.response 200 [1] : Nat → HttpAttempt) tr.attempts
            = .response s b ∧
          tr.result.status_code = s ∧
          tr.result.content = (if b.isEmpty then none else some (.parsed b))) :=
  c3_success_characterization {} "http://d" (fun _ => .response 200 [1]) (by simp)

/-- Counterexample to C3 as stated: a destination answering 301 (a 3xx
status, not 2xx, not in the default retryable set) makes `forward_data`
return `success = true` on the first attempt — success is NOT equivalent to
"some attempt returned a 2xx status". -/
theorem c3_counterexample :
    forward_data {} "http://d" (fun _ => .response 301 []) =
      .ok { result := { success := true, status_code := 301, content := none,
                        error_message := none },
            attempts := 1, sleeps := [] } ∧
    is2xx 301 = false := ⟨rfl, rfl⟩

/-- The success bucket of `process_records` is the in-order selection of the
records whose pipeline outcome is `success`, each contributing its persisted
id. -/
theorem process_records_results_spec {R T : Type} (env : PipelineEnv R T)
    (recs : List R) :
    (process_records env recs).results =
      recs.filterMap (fun r =>
        match processRecord env r with
        | .success id => some { id := id, status := "success" }
        | _ => none) := by
  induction recs with
  | nil => rfl
  | cons r rs ih =>
      cases hpr : processRecord env r <;>
        simp [process_records, hpr, List.filterMap_cons, ih]

/-- The validation bucket of `process_records` is the in-order selection of
the records whose pipeline outcome is a validation failure. -/
theorem process_records_validation_spec {R T : Type} (env : PipelineEnv R T)
    (recs : List R) :
    (process_records env recs).validation_errors =
      recs.filterMap (fun r =>
        match processRecord env r with
        | .vfail m =>
            some { record := r, status := "validation error", detail := m }
        | _ => none) := by
  induction recs with
  | nil => rfl
  | cons r rs ih =>
      cases hpr : processRecord env r <;>
        simp [process_records, hpr, List.filterMap_cons, ih]

/-- The error bucket of `process_records` is the in-order selection of the
records whose pipeline outcome is a non-validation failure. -/
theorem process_records_errors_spec {R T : Type} (env : PipelineEnv R T)
    (recs : List R) :
    (process_records env recs).errors =
      recs.filterMap (fun r =>
        match processRecord env r with
        | .ofail m => some { record := r, status := "error", detail := m }
        | _ => none) := by
  induction recs with
  | nil => rfl
  | cons r rs ih =>
      cases hpr : processRecord env r <;>
        simp [process_records, hpr, List.filterMap_cons, ih]

/-- Every input record of `process_records` lands in exactly one bucket: the
three bucket sizes add up to the batch size. -/
theorem process_records_partition_length {R T : Type} (env : PipelineEnv R T)
    (recs : List R) :
    (process_records env recs).results.length +
      (process_records env recs).validation_errors.length +
      (process_records env recs).errors.length = recs.length := by
  induction recs with
  | nil => rfl
  | cons r rs ih =>
      cases hpr : processRecord env r <;>
        simp [process_records, hpr] <;> omega

/-- Bucket sizes of `process_records` count the records with the matching
pipeline outcome. -/
theorem process_records_counts {R T : Type} (env : PipelineEnv R T)
    (recs : List R) :
    (process_records env recs).results.length =
      recs.countP (fun r =>
        match processRecord env r with
        | .success _ => true
        | _ => false) ∧
    (process_records env recs).validation_errors.length =
      recs.countP (fun r =>
        match processRecord env r with
        | .vfail _ => true
        | _ => false) ∧
    (process_records env recs).errors.length =
      recs.countP (fun r =>
        match processRecord env r with
        | .ofail _ => true
        | _ => false) := by
  induction recs with
  | nil => exact ⟨rfl, rfl, rfl⟩
  | cons r rs ih =>
      obtain ⟨ih1, ih2, ih3⟩ := ih
      cases hpr : processRecord env r <;>
        simp [process_records, hpr, List.countP_cons, ih1, ih2, ih3]

/-- C5: over any batch, `process_records` puts every record in exactly one of
the three buckets (sizes add up to K); the success bucket has size S, the
validation bucket size V and the error bucket size E, where S, V, E count the
records with the corresponding per-record outcome; each bucket lists its
entries in input order (it is the in-order `filterMap` of the per-record
outcome over the whole batch, so processing continues past earlier
failures). -/
theorem c5_batch_partition {R T : Type} (env : PipelineEnv R T)
    (recs : List R) :
    (process_records env recs).results =
      recs.filterMap (fun r =>
        match processRecord env r with
        | .success id => some { id := id, status := "success" }
        | _ => none) ∧
    (process_records env recs).validation_errors =
      recs.filterMap (fun r =>
        match processRecord env r with
        | .vfail m =>
            some { record := r, status := "validation error", detail := m }
        | _ => none) ∧
    (process_records env recs).errors =
      recs.filterMap (fun r =>
        match processRecord env r with
        | .ofail m => some { record := r, status := "error", detail := m }
        | _ => none) ∧
    (process_records env recs).results.length =
      recs.countP (fun r =>
        match processRecord env r with
        | .success _ => true
        | _ => false) ∧
    (process_records env recs).validation_errors.length =
      recs.countP (fun r =>
        match processRecord env r with
        | .vfail _ => true
        | _ => false) ∧
    (process_records env recs).errors.length =
      recs.countP (fun r =>
        match processRecord env r with
        | .ofail _ => true
        | _ => false) ∧
    (process_records env recs).results.length +
      (process_records env recs).validation_errors.length +
      (process_records env recs).errors.length = recs.length := by
  obtain ⟨h1, h2, h3⟩ := process_records_counts env recs
  exact ⟨process_records_results_spec env recs,
    process_records_validation_spec env recs,
    process_records_errors_spec env recs, h1, h2, h3,
    process_records_partition_length env recs⟩

/-- Every event emitted while handling the record at batch position `j`
carries index `j`. -/
theorem recordTrace_idx {R T : Type} (env : PipelineEnv R T) (j : Nat) (r : R) :
    ∀ e ∈ recordTrace env j r, e.idx = j := by
  intro e he
  cases hv : env.validate r with
  | error m =>
      simp [recordTrace, hv] at he
      subst he
      rfl
  | ok u =>
      cases u
      cases ht : env.transform r with
      | error m =>
          simp [recordTrace, hv, ht] at he
          rcases he with he | he <;> subst he <;> rfl
      | ok t =>
          cases hc : env.create r t with
          | error m =>
              simp [recordTrace, hv, ht, hc] at he
              rcases he with he | he | he <;> subst he <;> rfl
          | ok id =>
              simp [recordTrace, hv, ht, hc] at he
              rcases he with he | he | he | he <;> subst he <;> rfl

/-- Every event of a batch trace starting at position `i0` belongs to the
per-record trace of some record of the batch, at its shifted position. -/
theorem mem_pipelineTraceFrom {R T : Type} (env : PipelineEnv R T) :
    ∀ (recs : List R) (i0 : Nat) (e : Event),
      e ∈ pipelineTraceFrom env i0 recs →
      ∃ k r, recs[k]? = some r ∧ e ∈ recordTrace env (i0 + k) r := by
  intro recs
  induction recs with
  | nil =>
      intro i0 e he
      simp [pipelineTraceFrom] at he
  | cons r rs ih =>
      intro i0 e he
      rw [pipelineTraceFrom] at he
      rcases List.mem_append.mp he with h | h
      · exact ⟨0, r, by simp, by simpa using h⟩
      · obtain ⟨k, r2, hk, hmem⟩ := ih (i0 + 1) e h
        refine ⟨k + 1, r2, by simpa using hk, ?_⟩
        have harith : i0 + 1 + k = i0 + (k + 1) := by omega
        rwa [harith] at hmem

/-- C6: when the record at batch position `i` fails schema validation, the
only event `process_records` emits for it is the validation failure itself —
no transform, persistence, or forwarding call happens for that record. -/
theorem c6_validation_short_circuits {R T : Type} (env : PipelineEnv R T)
    (recs : List R) (i : Nat) (r : R) (m : String)
    (hr : recs[i]? = some r) (hv : env.validate r = .error m) :
    ∀ e ∈ pipelineTrace env recs, e.idx = i → e = .validateFail i m := by
  intro e he hidx
  obtain ⟨k, r2, hk, hmem⟩ := mem_pipelineTraceFrom env recs 0 e he
  have hik : e.idx = 0 + k := recordTrace_idx env (0 + k) r2 e hmem
  have hki : k = i := by omega
  subst hki
  rw [hr] at hk
  have hr2 : r = r2 := Option.some.inj hk
  subst hr2
  simp only [Nat.zero_add] at hmem
  simp [recordTrace, hv] at hmem
  exact hmem

/-- Witness for C6: in the batch `[1, 0]` against collaborators that reject
the record `0`, the sole event at position 1 is its validation failure. -/
theorem c6_validation_short_circuits_witness :
    Event.validateFail 1 "0 is not valid" = .validateFail 1 "0 is not valid" :=
  c6_validation_short_circuits envMixed [1, 0] 1 0 "0 is not valid" rfl rfl
    (Event.validateFail 1 "0 is not valid") (by decide) rfl

/-- Helper for C8: in a batch trace, any `forwardStart` event for record `i`
is preceded (at a strictly smaller trace position) by a `persistCommit` event
for the same record. -/
theorem pipelineTraceFrom_persist_before_forward {R T : Type}
    (env : PipelineEnv R T) :
    ∀ (recs : List R) (i0 k i : Nat),
      (pipelineTraceFrom env i0 recs)[k]? = some (.forwardStart i) →
      ∃ j, j < k ∧ ∃ d,
        (pipelineTraceFrom env i0 recs)[j]? = some (.persistCommit i d) := by
  intro recs
  induction recs with
  | nil =>
      intro i0 k i h
      simp [pipelineTraceFrom] at h
  | cons r rs ih =>
      intro i0 k i h
      rw [pipelineTraceFrom] at h
      by_cases hk : k < (recordTrace env i0 r).length
      · rw [List.getElem?_append_left hk] at h
        cases hv : env.validate r with
        | error m =>
            have hk1 : k < 1 := by simpa [recordTrace, hv] using hk
            have hk0 : k = 0 := by omega
            subst hk0
            simp [recordTrace, hv] at h
        | ok u =>
            cases u
            cases ht : env.transform r with
            | error m =>
                have hk2 : k < 2 := by simpa [recordTrace, hv, ht] using hk
                interval_cases k <;> simp [recordTrace, hv, ht] at h
            | ok t =>
                cases hc : env.create r t with
                | error m =>
                    have hk3 : k < 3 := by
                      simpa [recordTrace, hv, ht, hc] using hk
                    interval_cases k <;> simp [recordTrace, hv, ht, hc] at h
                | ok id =>
                    have hchunk : recordTrace env i0 r =
                        [Event.validateOk i0, Event.transformOk i0,
                         Event.persistCommit i0 id, Event.forwardStart i0] := by
                      simp [recordTrace, hv, ht, hc]
                    rw [hchunk] at h
                    have hk4 : k < 4 := by
                      simpa [hchunk] using hk
                    interval_cases k <;> simp at h
                    -- only k = 3 survives: h : i0 = i
                    refine ⟨2, by omega, id, ?_⟩
                    rw [pipelineTraceFrom, hchunk]
                    simp [h]
      · push_neg at hk
        rw [List.getElem?_append_right hk] at h
        obtain ⟨j, hj, d, hjd⟩ :=
          ih (i0 + 1) (k - (recordTrace env i0 r).length) i h
        refine ⟨(recordTrace env i0 r).length + j, by omega, d, ?_⟩
        rw [pipelineTraceFrom]
        rw [List.getElem?_append_right (by omega)]
        simpa using hjd

/-- C8: in every `process_records` run, a record's persistence commit event
strictly precedes (in the sequential event trace) any forwarding attempt for
that record — forwarding a record that was not persisted cannot occur. -/
theorem c8_persist_before_forward {R T : Type} (env : PipelineEnv R T)
    (recs : List R) (k i : Nat)
    (h : (pipelineTrace env recs)[k]? = some (.forwardStart i)) :
    ∃ j, j < k ∧ ∃ d,
      (pipelineTrace env recs)[j]? = some (.persistCommit i d) :=
  pipelineTraceFrom_persist_before_forward env recs 0 k i h

/-- Witness for C8: in the trace of a one-record all-succeeding batch, the
forwarding event at position 3 is preceded by the commit at position 2. -/
theorem c8_persist_before_forward_witness :
    ∃ j, j < 3 ∧ ∃ d,
      (pipelineTrace envOk [7])[j]? = some (.persistCommit 0 d) :=
  c8_persist_before_forward envOk [7] 3 0 (by decide)

/-- C1: the code contradicts the claim (and `forward_data`'s own docstring,
which promises `MaxRetriesExceededError` on exhausted retries).  With one
valid record and a destination that always answers 503, `forward_data`
RETURNS a failed `ResponseData` instead of raising; `process_records`
discards that return value at line 200 and appends a success entry anyway:
the success bucket reports the record as processed although delivery
failed. -/
theorem c1_delivery_failure_counted_as_success :
    env503.forward 0 =
      .ok { success := false, status_code := 503, content := none,
            error_message := some (maxRetriesMsg {}) } ∧
    (process_records env503 [0]).results = [{ id := 1, status := "success" }] ∧
    (process_records env503 [0]).validation_errors = [] ∧
    (process_records env503 [0]).errors = [] :=
  ⟨rfl, rfl, rfl, rfl⟩

/-- Counterexample to C7 as stated: an empty batch has zero failed records,
yet the aggregate decision is the hard-error (HTTP 400) response, not the
full-success one — `upload_file` reaches this with an empty uploaded file
(headers only), for which `process_file` returns `[]`. -/
theorem c7_counterexample :
    (process_records envOk ([] : List Nat)).validation_errors.length = 0 ∧
    (process_records envOk ([] : List Nat)).errors.length = 0 ∧
    batchVerdict (process_records envOk ([] : List Nat)) = .hardError 0 0 ∧
    (batchVerdict (process_records envOk ([] : List Nat))).isFullSuccess
      = false :=
  ⟨rfl, rfl, rfl, rfl⟩

/-- C7 (amended): for a NONEMPTY batch, the aggregate outcome is decided by
the bucket counts: empty success bucket (all records failed) → hard error
with the two failure counts; nonempty success bucket with some failure →
partial-success response; no validation error and no other error → the
full-success response.  (An empty batch instead yields the hard-error
response, see the counterexample.) -/
theorem c7_aggregate_verdict {R T : Type} (env : PipelineEnv R T)
    (recs : List R) (hne : recs ≠ []) :
    ((process_records env recs).results.length = 0 →
      batchVerdict (process_records env recs) =
        .hardError (process_records env recs).validation_errors.length
          (process_records env recs).errors.length) ∧
    ((process_records env recs).results.length ≠ 0 ∧
      ((process_records env recs).validation_errors.length ≠ 0 ∨
        (process_records env recs).errors.length ≠ 0) →
      batchVerdict (process_records env recs) =
        .someFailed (process_records env recs).validation_errors.length
          (process_records env recs).errors.length
          (process_records env recs).results) ∧
    ((process_records env recs).validation_errors.length = 0 ∧
      (process_records env recs).errors.length = 0 →
      batchVerdict (process_records env recs) =
        .fullSuccess (process_records env recs).results) := by
  refine ⟨?_, ?_, ?_⟩
  · intro h
    simp [batchVerdict, h]
  · rintro ⟨h1, h2 | h2⟩ <;> simp [batchVerdict, h1, h2]
  · rintro ⟨h1, h2⟩
    have hlen := process_records_partition_length env recs
    have hr : recs.length ≠ 0 := by
      cases recs with
      | nil => exact absurd rfl hne
      | cons a l => simp
    have hres : (process_records env recs).results.length ≠ 0 := by omega
    simp [batchVerdict, hres, h1, h2]

/-- Witness for C7 (amended): a one-record batch where everything succeeds
yields the full-success verdict. -/
theorem c7_aggregate_verdict_witness :
    batchVerdict (process_records envOk [5]) =
      .fullSuccess (process_records envOk [5]).results :=
  (c7_aggregate_verdict envOk [5] (by simp)).2.2 ⟨rfl, rfl⟩
